import Mathlib

/-
Verification of the per-partition resource-manager state machine (rm_stm)
of a Kafka-compatible replicated log, against src/src/v/cluster/rm_stm.h.

Shallow embedding conventions:
  - machine integers (offsets, epochs, sequence numbers, tx_seq, terms,
    timestamps) are modelled as Int; the source never relies on overflow
    for these quantities;
  - absl hash/btree maps are modelled as association lists with unique
    keys (alookup / ainsert / aerase below);
  - absl btree sets of offsets are modelled as lists of Int, erased with
    filter (set semantics: one copy per element);
  - ss::circular_buffer is modelled as a List with push_back = append and
    pop_front = tail.

Functions whose bodies live only in rm_stm.cc (which is not part of the
sources) are modelled from the specification; each such definition carries
a doc comment starting with "Modelled from the spec:".
-/

/-- model::producer_identity: a (producer_id, epoch) pair. -/
structure producer_identity where
  id : Int
  epoch : Int
deriving DecidableEq, Repr

/-- model::tx_range: (pid, first, last), inclusive log offsets. -/
structure tx_range where
  pid : producer_identity
  first : Int
  last : Int
deriving DecidableEq, Repr

/-- rm_stm::abort_index, rm_stm.h lines 72-77. -/
structure abort_index where
  first : Int
  last : Int
deriving DecidableEq, Repr

/-- rm_stm::prepare_marker, rm_stm.h lines 79-88. -/
structure prepare_marker where
  tm_partition : Int
  tx_seq : Int
  pid : producer_identity
deriving DecidableEq, Repr

/-- rm_stm::seq_cache_entry, rm_stm.h lines 90-95. -/
structure seq_cache_entry where
  seq : Int
  offset : Int
deriving DecidableEq, Repr

/-- rm_stm::seq_entry, rm_stm.h lines 97-154.  seq_cache is the
ss::circular_buffer, front at the head of the list. -/
structure seq_entry where
  pid : producer_identity
  seq : Int
  last_offset : Int
  seq_cache : List seq_cache_entry
  last_write_timestamp : Int
deriving DecidableEq, Repr

/-- seq_entry::seq_cache_size, rm_stm.h line 98. -/
def seq_cache_size : Nat := 5

/-- Fuel-indexed unfolding of the while loop
`while (seq_cache.size() >= seq_entry::seq_cache_size) seq_cache.pop_front();`
from rm_stm.h lines 132-134.  Each iteration removes one element, so
`l.length` iterations always suffice. -/
def trimCacheAux : Nat → List seq_cache_entry → List seq_cache_entry
  | 0, l => l
  | n + 1, l => if seq_cache_size ≤ l.length then trimCacheAux n l.tail else l

/-- The pop-front loop of seq_entry::update (rm_stm.h lines 132-134). -/
def trimCache (l : List seq_cache_entry) : List seq_cache_entry :=
  trimCacheAux l.length l

/-- seq_entry::update, rm_stm.h lines 119-139. -/
def seq_entry.update (e : seq_entry) (new_seq new_offset : Int) : seq_entry :=
  if new_seq < e.seq then
    e
  else if e.seq = new_seq then
    { e with last_offset := new_offset }
  else if 0 ≤ e.seq ∧ 0 ≤ e.last_offset then
    { e with
      seq := new_seq
      last_offset := new_offset
      seq_cache := trimCache (e.seq_cache ++ [⟨e.seq, e.last_offset⟩]) }
  else
    { e with seq := new_seq, last_offset := new_offset }

/-- Fold of seq_entry::update over a list of (new_seq, new_offset) calls. -/
def apply_updates (e : seq_entry) : List (Int × Int) → seq_entry
  | [] => e
  | (s, o) :: rest => apply_updates (e.update s o) rest

/-- The pairs pushed into seq_cache ("superseded") along a run of
seq_entry::update calls, in order of supersession.  The branch structure
mirrors seq_entry.update exactly. -/
def superseded_pairs (e : seq_entry) : List (Int × Int) → List seq_cache_entry
  | [] => []
  | (s, o) :: rest =>
    if s < e.seq then
      superseded_pairs (e.update s o) rest
    else if e.seq = s then
      superseded_pairs (e.update s o) rest
    else if 0 ≤ e.seq ∧ 0 ≤ e.last_offset then
      ⟨e.seq, e.last_offset⟩ :: superseded_pairs (e.update s o) rest
    else
      superseded_pairs (e.update s o) rest

lemma trimCacheAux_succ (n : Nat) (l : List seq_cache_entry) :
    trimCacheAux (n + 1) l =
      if seq_cache_size ≤ l.length then trimCacheAux n l.tail else l := rfl

lemma trimCache_short (l : List seq_cache_entry) (h : l.length < seq_cache_size) :
    trimCache l = l := by
  unfold trimCache
  cases l with
  | nil => rfl
  | cons x t =>
    rw [List.length_cons, trimCacheAux_succ]
    exact if_neg (by exact Nat.not_le.mpr h)

lemma rtake_of_length_le {α : Type} (l : List α) {n : Nat} (h : l.length ≤ n) :
    l.rtake n = l := by
  simp [List.rtake, Nat.sub_eq_zero_of_le h]

lemma length_rtake_of_le {α : Type} (l : List α) {n : Nat} (h : n ≤ l.length) :
    (l.rtake n).length = n := by
  simp only [List.rtake, List.length_drop]
  omega

/-- Pushing one entry through the source's trim loop keeps exactly the
last `seq_cache_size - 1 = 4` entries. -/
lemma trim_push (acc : List seq_cache_entry) (p : seq_cache_entry) :
    trimCache (acc.rtake 4 ++ [p]) = (acc ++ [p]).rtake 4 := by
  rcases le_or_lt acc.length 3 with h3 | h4
  · have h4' : acc.length ≤ 4 := by omega
    rw [rtake_of_length_le acc h4']
    rw [rtake_of_length_le (acc ++ [p]) (by simp; omega)]
    exact trimCache_short _ (by simp [seq_cache_size]; omega)
  · have h4' : 4 ≤ acc.length := h4
    have hlen : (acc.rtake 4).length = 4 := length_rtake_of_le acc h4'
    -- the appended list has length 5, the loop pops exactly one entry
    have hlen5 : (acc.rtake 4 ++ [p]).length = 5 := by
      simp [hlen]
    have hstep : trimCache (acc.rtake 4 ++ [p])
        = trimCacheAux 4 (acc.rtake 4 ++ [p]).tail := by
      unfold trimCache
      rw [hlen5]
      rw [show (5 : Nat) = 4 + 1 from rfl, trimCacheAux_succ]
      rw [if_pos (by rw [hlen5]; exact Nat.le_refl 5)]
    have htail : (acc.rtake 4 ++ [p]).tail = (acc.rtake 4).tail ++ [p] := by
      cases hc : acc.rtake 4 with
      | nil => rw [hc] at hlen; simp at hlen
      | cons a t => simp
    have htail_len : ((acc.rtake 4).tail ++ [p]).length = 4 := by
      simp [List.length_tail, hlen]
    have hfinish : trimCacheAux 4 ((acc.rtake 4).tail ++ [p])
        = (acc.rtake 4).tail ++ [p] := by
      rw [show (4 : Nat) = 3 + 1 from rfl, trimCacheAux_succ]
      rw [if_neg (by rw [htail_len]; simp [seq_cache_size])]
    have hdrop : (acc.rtake 4).tail = acc.rtake 3 := by
      show (acc.drop (acc.length - 4)).tail = acc.drop (acc.length - 3)
      rw [← List.drop_one, List.drop_drop]
      congr 1
      omega
    rw [hstep, htail, hfinish, hdrop]
    rw [show (4 : Nat) = 3 + 1 from rfl, List.rtake_concat_succ]

/-- Invariant carried through any run of updates: the cache equals the
last four superseded pairs. -/
lemma cache_is_rtake_superseded :
    ∀ (l : List (Int × Int)) (e : seq_entry) (acc : List seq_cache_entry),
      e.seq_cache = acc.rtake 4 →
      (apply_updates e l).seq_cache = (acc ++ superseded_pairs e l).rtake 4 := by
  intro l
  induction l with
  | nil =>
    intro e acc h
    simpa [apply_updates, superseded_pairs] using h
  | cons p rest ih =>
    intro e acc h
    obtain ⟨s, o⟩ := p
    show (apply_updates (e.update s o) rest).seq_cache = _
    by_cases h1 : s < e.seq
    · have hsp : superseded_pairs e ((s, o) :: rest)
          = superseded_pairs (e.update s o) rest := by
        simp [superseded_pairs, h1]
      have hc : (e.update s o).seq_cache = acc.rtake 4 := by
        simp [seq_entry.update, h1, h]
      rw [hsp]
      exact ih (e.update s o) acc hc
    · by_cases h2 : e.seq = s
      · have hsp : superseded_pairs e ((s, o) :: rest)
            = superseded_pairs (e.update s o) rest := by
          simp [superseded_pairs, h1, h2]
        have hc : (e.update s o).seq_cache = acc.rtake 4 := by
          simp [seq_entry.update, h1, h2, h]
        rw [hsp]
        exact ih (e.update s o) acc hc
      · by_cases h3 : 0 ≤ e.seq ∧ 0 ≤ e.last_offset
        · have hsp : superseded_pairs e ((s, o) :: rest)
              = (⟨e.seq, e.last_offset⟩ : seq_cache_entry)
                  :: superseded_pairs (e.update s o) rest := by
            simp [superseded_pairs, h1, h2, h3]
          have hc : (e.update s o).seq_cache
              = (acc ++ [(⟨e.seq, e.last_offset⟩ : seq_cache_entry)]).rtake 4 := by
            simp only [seq_entry.update, if_neg h1, if_neg h2, if_pos h3]
            rw [h]
            exact trim_push acc _
          rw [hsp]
          have := ih (e.update s o) (acc ++ [⟨e.seq, e.last_offset⟩]) hc
          rw [this]
          congr 1
          simp
        · have hsp : superseded_pairs e ((s, o) :: rest)
              = superseded_pairs (e.update s o) rest := by
            simp [superseded_pairs, h1, h2, h3]
          have hc : (e.update s o).seq_cache = acc.rtake 4 := by
            simp [seq_entry.update, h1, h2, h3, h]
          rw [hsp]
          exact ih (e.update s o) acc hc

/-- The default-initialized seq_entry of the source (seq = -1,
last_offset = -1, empty cache), for producer (7,0). -/
def init_seq_entry : seq_entry :=
  { pid := ⟨7, 0⟩, seq := -1, last_offset := -1, seq_cache := [],
    last_write_timestamp := 0 }

/-- Six consecutive updates; the last five supersede a pair with
seq ≥ 0 and last_offset ≥ 0. -/
def six_updates : List (Int × Int) :=
  [(0, 10), (1, 11), (2, 12), (3, 13), (4, 14), (5, 15)]

example : (superseded_pairs init_seq_entry six_updates).length = 5 := by decide

example : (apply_updates init_seq_entry six_updates).seq_cache
    = [⟨1, 11⟩, ⟨2, 12⟩, ⟨3, 13⟩, ⟨4, 14⟩] := by decide

/-- C2 counterexample: after five qualifying supersessions the cache holds
only the four most recent pairs, not five: the pop-front loop runs while
`size >= seq_cache_size`, so the cache never reaches size 5. -/
theorem c2_counterexample :
    superseded_pairs init_seq_entry six_updates
      = [⟨0, 10⟩, ⟨1, 11⟩, ⟨2, 12⟩, ⟨3, 13⟩, ⟨4, 14⟩] ∧
    (apply_updates init_seq_entry six_updates).seq_cache
      = [⟨1, 11⟩, ⟨2, 12⟩, ⟨3, 13⟩, ⟨4, 14⟩] ∧
    (apply_updates init_seq_entry six_updates).seq_cache
      ≠ superseded_pairs init_seq_entry six_updates := by decide

/-- C2 (amended): for every seq_entry whose cache holds at most 4 entries
(true of every reachable entry), after any sequence of seq_entry::update
calls the cache contains exactly the 4 most recently superseded
(seq, offset) pairs, in order of supersession (the last four of the
supersession trace). -/
theorem c2_seq_cache_holds_last_four (e : seq_entry) (l : List (Int × Int))
    (h : e.seq_cache.length ≤ 4) :
    (apply_updates e l).seq_cache
      = (e.seq_cache ++ superseded_pairs e l).rtake 4 := by
  exact cache_is_rtake_superseded l e e.seq_cache
    (Eq.symm (rtake_of_length_le e.seq_cache h))

/-- Witness for c2_seq_cache_holds_last_four at a concrete entry and run. -/
theorem c2_witness :
    (apply_updates init_seq_entry six_updates).seq_cache
      = (init_seq_entry.seq_cache ++ superseded_pairs init_seq_entry six_updates).rtake 4 :=
  c2_seq_cache_holds_last_four init_seq_entry six_updates (by decide)

/-- C4 counterexample: seq_entry::update returns early when the incoming
sequence is below the stored one, so applying a batch with a lower
sequence does not override a higher speculative value. -/
theorem c4_counterexample :
    ((⟨⟨7, 0⟩, 10, 100, [], 0⟩ : seq_entry).update 5 50).seq = 10 ∧
    ((⟨⟨7, 0⟩, 10, 100, [], 0⟩ : seq_entry).update 5 50).last_offset = 100 ∧
    (10 : Int) ≠ 5 := by decide

/-- C4 (amended): seq_entry::update is authoritative for sequences at or
above the stored one: whenever the applied batch's sequence is ≥ the
stored seq, the stored seq and last_offset become exactly the applied
batch's sequence and offset; strictly lower sequences are ignored. -/
theorem c4_update_overrides_at_or_above (e : seq_entry) (s o : Int)
    (h : e.seq ≤ s) :
    (e.update s o).seq = s ∧ (e.update s o).last_offset = o := by
  have h1 : ¬ s < e.seq := not_lt.mpr h
  by_cases h2 : e.seq = s
  · constructor
    · simp [seq_entry.update, h1, h2]
    · simp [seq_entry.update, h1, h2]
  · by_cases h3 : 0 ≤ e.seq ∧ 0 ≤ e.last_offset
    · constructor
      · simp [seq_entry.update, h1, h2, h3]
      · simp [seq_entry.update, h1, h2, h3]
    · constructor
      · simp [seq_entry.update, h1, h2, h3]
      · simp [seq_entry.update, h1, h2, h3]

/-- Witness for c4_update_overrides_at_or_above at a concrete entry. -/
theorem c4_witness :
    ((⟨⟨7, 0⟩, 3, 30, [], 0⟩ : seq_entry).update 4 40).seq = 4 ∧
    ((⟨⟨7, 0⟩, 3, 30, [], 0⟩ : seq_entry).update 4 40).last_offset = 40 :=
  c4_update_overrides_at_or_above ⟨⟨7, 0⟩, 3, 30, [], 0⟩ 4 40 (by decide)

/-- Association-list lookup (absl map `find`), first matching key. -/
def alookup {α β : Type} [DecidableEq α] (k : α) : List (α × β) → Option β
  | [] => none
  | (k', v) :: t => if k' = k then some v else alookup k t

/-- Association-list erase (absl map `erase`): removes every pair with
the given key (maps built by ainsert hold each key once). -/
def aerase {α β : Type} [DecidableEq α] (k : α) (m : List (α × β)) :
    List (α × β) :=
  m.filter (fun p => p.1 ≠ k)

/-- Association-list insert-or-assign. -/
def ainsert {α β : Type} [DecidableEq α] (k : α) (v : β) (m : List (α × β)) :
    List (α × β) :=
  (k, v) :: aerase k m

lemma alookup_aerase_self {α β : Type} [DecidableEq α] (k : α)
    (m : List (α × β)) : alookup k (aerase k m) = none := by
  induction m with
  | nil => rfl
  | cons p t ih =>
    by_cases hk : p.1 = k
    · simpa [aerase, hk] using ih
    · obtain ⟨k', v⟩ := p
      simp only [] at hk
      simp [aerase, alookup, hk] at ih ⊢
      simpa [aerase] using ih

lemma alookup_aerase_ne {α β : Type} [DecidableEq α] {k k' : α}
    (h : k' ≠ k) (m : List (α × β)) : alookup k (aerase k' m) = alookup k m := by
  induction m with
  | nil => rfl
  | cons p t ih =>
    obtain ⟨a, v⟩ := p
    by_cases ha : a = k'
    · subst ha
      simp [aerase, alookup, h, ih]
      simpa [aerase] using ih
    · by_cases hak : a = k
      · subst hak
        simp [aerase, alookup, ha]
      · simp [aerase, alookup, ha, hak]
        simpa [aerase] using ih

lemma alookup_ainsert_self {α β : Type} [DecidableEq α] (k : α) (v : β)
    (m : List (α × β)) : alookup k (ainsert k v m) = some v := by
  simp [ainsert, alookup]

lemma alookup_ainsert_ne {α β : Type} [DecidableEq α] {k k' : α}
    (h : k' ≠ k) (v : β) (m : List (α × β)) :
    alookup k (ainsert k' v m) = alookup k m := by
  simp [ainsert, alookup, h]
  exact alookup_aerase_ne h m

lemma alookup_mem {α β : Type} [DecidableEq α] {k : α} {v : β}
    {m : List (α × β)} (h : alookup k m = some v) : (k, v) ∈ m := by
  induction m with
  | nil => simp [alookup] at h
  | cons p t ih =>
    obtain ⟨a, w⟩ := p
    by_cases ha : a = k
    · subst ha
      simp [alookup] at h
      subst h
      exact List.mem_cons_self _ _
    · simp [alookup, ha] at h
      exact List.mem_cons_of_mem _ (ih h)

lemma alookup_unique_of_keys_nodup {α β : Type} [DecidableEq α]
    {m : List (α × β)} (hnd : (m.map Prod.fst).Nodup) {k : α} {v w : β}
    (hl : alookup k m = some v) (hmem : (k, w) ∈ m) : w = v := by
  induction m with
  | nil => simp at hmem
  | cons p t ih =>
    obtain ⟨a, u⟩ := p
    simp only [List.map_cons, List.nodup_cons] at hnd
    rcases List.mem_cons.mp hmem with heq | htail
    · have hak : a = k := (congrArg Prod.fst heq.symm : a = k)
      have hw : u = w := (congrArg Prod.snd heq.symm : u = w)
      subst hak
      simp [alookup] at hl
      rw [← hw, hl]
    · by_cases hak : a = k
      · subst hak
        exact absurd (List.mem_map_of_mem Prod.fst htail) (by simpa using hnd.1)
      · simp [alookup, hak] at hl
        exact ih hnd.2 hl htail

/-- rm_stm::tx_data, rm_stm.h lines 287-290. -/
structure tx_data where
  tx_seq : Int
  tm_partition : Int
deriving DecidableEq, Repr

/-- rm_stm::expiration_info, rm_stm.h lines 275-285.  Durations and time
points are modelled as Int ticks of ss::lowres_clock. -/
structure expiration_info where
  timeout : Int
  last_update : Int
  is_expiration_requested : Bool
deriving DecidableEq, Repr

/-- expiration_info::deadline, rm_stm.h line 280. -/
def expiration_info.deadline (e : expiration_info) : Int :=
  e.last_update + e.timeout

/-- expiration_info::is_expired, rm_stm.h lines 282-284. -/
def expiration_info.is_expired (e : expiration_info) (now : Int) : Bool :=
  e.is_expiration_requested || decide (e.deadline ≤ now)

/-- rm_stm::seq_entry_wrapper, rm_stm.h lines 509-512. -/
structure seq_entry_wrapper where
  entry : seq_entry
  term : Int
deriving DecidableEq, Repr

/-- rm_stm::abort_snapshot, rm_stm.h lines 190-201. -/
structure abort_snapshot where
  first : Int
  last : Int
  aborted : List tx_range
deriving DecidableEq, Repr

/-- rm_stm::log_state, rm_stm.h lines 534-646, with its containers in
declaration order. -/
structure log_state where
  fence_pid_epoch : List (Int × Int)
  ongoing_map : List (producer_identity × tx_range)
  ongoing_set : List Int
  prepared : List (producer_identity × prepare_marker)
  aborted : List tx_range
  abort_indexes : List abort_index
  last_abort_snapshot : abort_snapshot
  seq_table : List (producer_identity × seq_entry_wrapper)
  current_txes : List (producer_identity × tx_data)
  expiration : List (producer_identity × expiration_info)
deriving DecidableEq, Repr

/-- log_state::forget, rm_stm.h lines 625-632.  Note that it erases the
pid from fence_pid_epoch, ongoing_map, prepared, seq_table, current_txes
and expiration but never touches ongoing_set. -/
def log_state.forget (s : log_state) (pid : producer_identity) : log_state :=
  { s with
    fence_pid_epoch := aerase pid.id s.fence_pid_epoch
    ongoing_map := aerase pid s.ongoing_map
    prepared := aerase pid s.prepared
    seq_table := aerase pid s.seq_table
    current_txes := aerase pid s.current_txes
    expiration := aerase pid s.expiration }

/-- rm_stm::mem_state, rm_stm.h lines 648-726, containers in declaration
order. -/
structure mem_state where
  term : Int
  estimated : List (producer_identity × Int)
  last_end_tx : Int
  last_lso : Int
  tx_start : List (producer_identity × Int)
  tx_starts : List Int
  expected : List (producer_identity × Int)
  preparing : List (producer_identity × prepare_marker)
deriving DecidableEq, Repr

/-- mem_state::forget, rm_stm.h lines 716-725: erases pid from expected,
estimated and preparing, and, only when pid has a tx_start entry, erases
that entry's offset from the tx_starts set together with the entry. -/
def mem_state.forget (m : mem_state) (pid : producer_identity) : mem_state :=
  let m1 := { m with
    expected := aerase pid m.expected
    estimated := aerase pid m.estimated
    preparing := aerase pid m.preparing }
  match alookup pid m.tx_start with
  | some off =>
    { m1 with
      tx_starts := m1.tx_starts.filter (fun o => o ≠ off)
      tx_start := aerase pid m1.tx_start }
  | none => m1

/-- Spec §3 invariant 3: ongoing_set is the multiset of first_offset of
all entries of ongoing_map and of mem_state.tx_start. -/
def ongoing_set_inv (s : log_state) (tx_start : List (producer_identity × Int)) :
    Prop :=
  List.Perm s.ongoing_set
    (s.ongoing_map.map (fun q => q.2.first) ++ tx_start.map Prod.snd)

/-- A concrete log_state: producer (7,0) has an ongoing transaction with
first offset 5, mirrored in ongoing_set; empty everything else. -/
def c1_state : log_state :=
  { fence_pid_epoch := [(7, 0)]
    ongoing_map := [(⟨7, 0⟩, ⟨⟨7, 0⟩, 5, 9⟩)]
    ongoing_set := [5]
    prepared := []
    aborted := []
    abort_indexes := []
    last_abort_snapshot := ⟨0, -1, []⟩
    seq_table := []
    current_txes := []
    expiration := [] }

/-- C1: log_state::forget erases the pid's ongoing_map entry but leaves
its first_offset in ongoing_set, breaking the invariant that ongoing_set
is the multiset of first offsets of ongoing_map ∪ tx_start.  The claim
(and spec invariant 3) requires the offset to be removed together with
the entry, as mem_state::forget does for tx_starts. -/
theorem c1_forget_leaks_ongoing_set :
    ongoing_set_inv c1_state [] ∧
    alookup ⟨7, 0⟩ (c1_state.forget ⟨7, 0⟩).ongoing_map = none ∧
    (c1_state.forget ⟨7, 0⟩).ongoing_set = [5] ∧
    ¬ ongoing_set_inv (c1_state.forget ⟨7, 0⟩) [] := by
  unfold ongoing_set_inv
  refine ⟨by decide, by decide, by decide, by decide⟩

/-- Modelled from the spec: the effect of rm_stm::apply_fence (defined in
rm_stm.cc, which is not among the sources) on log_state.fence_pid_epoch.
Spec §4.3: "Raise fence_pid_epoch[pid.producer_id] to
max(existing, pid.epoch)"; a previously unknown producer_id is inserted
with the incoming epoch (§3: "A PID enters fence_pid_epoch on first fence
or data write"). -/
def apply_fence_epoch (pid : producer_identity) (m : List (Int × Int)) :
    List (Int × Int) :=
  match alookup pid.id m with
  | some e => ainsert pid.id (max e pid.epoch) m
  | none => ainsert pid.id pid.epoch m

/-- The two operations that modify fence_pid_epoch: fence application and
producer eviction (log_state::forget erases pid.get_id(), rm_stm.h
line 626). -/
inductive fence_op where
  | fence (pid : producer_identity)
  | evict (pid : producer_identity)
deriving DecidableEq, Repr

def fence_step (m : List (Int × Int)) : fence_op → List (Int × Int)
  | .fence pid => apply_fence_epoch pid m
  | .evict pid => aerase pid.id m

def fence_run (m : List (Int × Int)) : List fence_op → List (Int × Int)
  | [] => m
  | op :: rest => fence_run (fence_step m op) rest

/-- C5 counterexample: fence producer 7 at epoch 5, evict it
(log_state::forget erases the fence_pid_epoch entry), then fence it at
epoch 3: the stored epoch goes from 5 to 3, so it is not non-decreasing
over the life of the STM once eviction is included. -/
theorem c5_counterexample :
    alookup 7 (fence_run [] [.fence ⟨7, 5⟩]) = some 5 ∧
    alookup 7 (fence_run [] [.fence ⟨7, 5⟩, .evict ⟨7, 5⟩, .fence ⟨7, 3⟩])
      = some 3 ∧
    (3 : Int) < 5 := by decide

/-- C5 (amended): for every producer_id the stored epoch in
fence_pid_epoch is non-decreasing while the producer remains tracked:
fence application never lowers an existing entry (it raises it to
max(existing, incoming)).  log_state::forget erases the entry, after
which a later fence re-inserts the incoming epoch, which may be lower
than the value stored before the eviction. -/
theorem c5_fence_epoch_monotone_while_tracked (m : List (Int × Int))
    (pid : producer_identity) (i e e' : Int)
    (h : alookup i m = some e)
    (h' : alookup i (apply_fence_epoch pid m) = some e') :
    e ≤ e' := by
  by_cases hpi : pid.id = i
  · rw [apply_fence_epoch, hpi, h] at h'
    rw [alookup_ainsert_self] at h'
    cases h'
    exact le_max_left e pid.epoch
  · have hsame : alookup i (apply_fence_epoch pid m) = alookup i m := by
      rw [apply_fence_epoch]
      cases alookup pid.id m with
      | some x => exact alookup_ainsert_ne hpi _ m
      | none => exact alookup_ainsert_ne hpi _ m
    rw [hsame, h] at h'
    cases h'
    exact le_refl e

/-- Witness for c5_fence_epoch_monotone_while_tracked at a concrete map. -/
theorem c5_witness :
    alookup 7 (apply_fence_epoch ⟨7, 9⟩ [(7, 5)]) = some 9 ∧ (5 : Int) ≤ 9 :=
  ⟨by decide,
   c5_fence_epoch_monotone_while_tracked [(7, 5)] ⟨7, 9⟩ 7 5 9
     (by decide) (by decide)⟩

/-- Modelled from the spec: rm_stm::do_mark_expired (rm_stm.cc, not among
the sources) per §4.2: "mark_expired(pid). Sets
expiration[pid].is_expiration_requested = true". -/
def mark_expired (e : expiration_info) : expiration_info :=
  { e with is_expiration_requested := true }

/-- C7: for every expiration_info, deadline() is last_update + timeout
(rm_stm.h line 280), and after mark_expired sets
is_expiration_requested, is_expired(now) is true for every time point,
whether or not the deadline has passed (rm_stm.h lines 282-284). -/
theorem c7_expiration_deadline_and_mark_expired
    (e : expiration_info) (now : Int) :
    e.deadline = e.last_update + e.timeout ∧
    (mark_expired e).is_expired now = true := by
  constructor
  · rfl
  · simp [mark_expired, expiration_info.is_expired]

/-- The two halves of the rm_stm state (rm_stm.h lines 771-772). -/
structure rm_stm_state where
  log : log_state
  mem : mem_state
deriving DecidableEq, Repr

/-- rm_stm::get_tx_seq, rm_stm.h lines 494-502: looks up
_log_state.current_txes and nothing else. -/
def rm_stm_state.get_tx_seq (s : rm_stm_state) (pid : producer_identity) :
    Option Int :=
  match alookup pid s.log.current_txes with
  | some td => some td.tx_seq
  | none => none

/-- C9: get_tx_seq reads only log_state.current_txes: its result is
unchanged by any difference in mem state (or any other field), it returns
the stored tx_seq when an applied transaction exists, and it returns none
whenever current_txes has no entry — even if the transaction exists
speculatively in mem_state.expected. -/
theorem c9_get_tx_seq_reads_only_current_txes (s t : rm_stm_state)
    (pid : producer_identity)
    (hsame : s.log.current_txes = t.log.current_txes) :
    s.get_tx_seq pid = t.get_tx_seq pid ∧
    (∀ td, alookup pid s.log.current_txes = some td →
      s.get_tx_seq pid = some td.tx_seq) ∧
    (alookup pid s.log.current_txes = none → s.get_tx_seq pid = none) := by
  refine ⟨?_, ?_, ?_⟩
  · rw [rm_stm_state.get_tx_seq, rm_stm_state.get_tx_seq, hsame]
  · intro td htd
    rw [rm_stm_state.get_tx_seq, htd]
  · intro hnone
    rw [rm_stm_state.get_tx_seq, hnone]

/-- A state where producer (7,0) has begun a transaction speculatively
(mem_state.expected holds tx_seq 42) but no fence batch has been applied
(log_state.current_txes is empty). -/
def c9_state : rm_stm_state :=
  { log :=
    { fence_pid_epoch := []
      ongoing_map := []
      ongoing_set := []
      prepared := []
      aborted := []
      abort_indexes := []
      last_abort_snapshot := ⟨0, -1, []⟩
      seq_table := []
      current_txes := []
      expiration := [] }
    mem :=
    { term := 1
      estimated := []
      last_end_tx := -1
      last_lso := -1
      tx_start := []
      tx_starts := []
      expected := [(⟨7, 0⟩, 42)]
      preparing := [] } }

/-- Witness for c9_get_tx_seq_reads_only_current_txes: a transaction that
exists only speculatively in mem state yields none. -/
theorem c9_witness : c9_state.get_tx_seq ⟨7, 0⟩ = none :=
  (c9_get_tx_seq_reads_only_current_txes c9_state c9_state ⟨7, 0⟩ rfl).2.2 rfl

/-- The mem-state half of spec §3 invariant 3: the tx_starts set holds
exactly the first offsets recorded in tx_start. -/
def tx_starts_inv (m : mem_state) : Prop :=
  (∀ o ∈ m.tx_starts, o ∈ m.tx_start.map Prod.snd) ∧
  (∀ o ∈ m.tx_start.map Prod.snd, o ∈ m.tx_starts)

lemma mem_forget_some {m : mem_state} {pid : producer_identity} {off : Int}
    (hfind : alookup pid m.tx_start = some off) :
    m.forget pid = { m with
      expected := aerase pid m.expected
      estimated := aerase pid m.estimated
      preparing := aerase pid m.preparing
      tx_starts := m.tx_starts.filter (fun o => o ≠ off)
      tx_start := aerase pid m.tx_start } := by
  simp only [mem_state.forget, hfind]

lemma mem_forget_none {m : mem_state} {pid : producer_identity}
    (hfind : alookup pid m.tx_start = none) :
    m.forget pid = { m with
      expected := aerase pid m.expected
      estimated := aerase pid m.estimated
      preparing := aerase pid m.preparing } := by
  simp only [mem_state.forget, hfind]

/-- C10 counterexample: when two producers share the same tx_start offset,
mem_state::forget of one of them erases the shared offset from the
tx_starts set (a btree_set holds one copy) although the other producer
still maps to it, so tx_starts stops being the image of tx_start. -/
theorem c10_counterexample :
    tx_starts_inv
      ⟨0, [], -1, -1, [(⟨7, 0⟩, 5), (⟨8, 0⟩, 5)], [5], [], []⟩ ∧
    ¬ tx_starts_inv
      ((⟨0, [], -1, -1, [(⟨7, 0⟩, 5), (⟨8, 0⟩, 5)], [5], [], []⟩ :
        mem_state).forget ⟨7, 0⟩) := by
  unfold tx_starts_inv
  exact ⟨by decide, by decide⟩

/-- C10 (amended): provided tx_start has one entry per pid and distinct
producers hold distinct first offsets (true of reachable states, where
tx_starts mirrors tx_start), mem_state::forget keeps tx_starts equal to
the image of tx_start: it erases pid's tx_start entry and that entry's
offset from tx_starts together, leaves tx_starts (and tx_start) unchanged
when pid has no tx_start entry, and erases pid from expected, estimated
and preparing.  When two pids share an offset the set loses the shared
offset (see the counterexample). -/
theorem c10_mem_forget_keeps_tx_starts_image (m : mem_state)
    (pid : producer_identity)
    (hkeys : (m.tx_start.map Prod.fst).Nodup)
    (hvals : (m.tx_start.map Prod.snd).Nodup)
    (hinv : tx_starts_inv m) :
    tx_starts_inv (m.forget pid) ∧
    alookup pid (m.forget pid).tx_start = none ∧
    (alookup pid m.tx_start = none →
      (m.forget pid).tx_starts = m.tx_starts ∧
      (m.forget pid).tx_start = m.tx_start) ∧
    alookup pid (m.forget pid).expected = none ∧
    alookup pid (m.forget pid).estimated = none ∧
    alookup pid (m.forget pid).preparing = none := by
  cases hfind : alookup pid m.tx_start with
  | none =>
    rw [mem_forget_none hfind]
    refine ⟨hinv, hfind, fun _ => ⟨rfl, rfl⟩, ?_, ?_, ?_⟩
    · exact alookup_aerase_self pid m.expected
    · exact alookup_aerase_self pid m.estimated
    · exact alookup_aerase_self pid m.preparing
  | some off =>
    rw [mem_forget_some hfind]
    refine ⟨?_, ?_, ?_, ?_, ?_, ?_⟩
    · constructor
      · intro o ho
        have hmem := List.mem_filter.mp ho
        have hne : o ≠ off := by simpa using hmem.2
        have hmap : o ∈ m.tx_start.map Prod.snd := hinv.1 o hmem.1
        obtain ⟨q, hq, hqo⟩ := List.mem_map.mp hmap
        have hq_ne_pid : q.1 ≠ pid := by
          intro habs
          have hq' : (pid, q.2) ∈ m.tx_start := by
            rw [← habs]
            exact hq
          have : q.2 = off := alookup_unique_of_keys_nodup hkeys hfind hq'
          exact hne (by rw [← hqo, this])
        refine List.mem_map.mpr ⟨q, ?_, hqo⟩
        exact List.mem_filter.mpr ⟨hq, by simpa using hq_ne_pid⟩
      · intro o ho
        obtain ⟨q, hq, hqo⟩ := List.mem_map.mp ho
        have hq_in : q ∈ m.tx_start := (List.mem_filter.mp hq).1
        have hq_ne_pid : q.1 ≠ pid := by
          simpa using (List.mem_filter.mp hq).2
        have ho_in : o ∈ m.tx_starts :=
          hinv.2 o (List.mem_map.mpr ⟨q, hq_in, hqo⟩)
        have hne : o ≠ off := by
          intro habs
          have hp_mem : (pid, off) ∈ m.tx_start := alookup_mem hfind
          have : q = (pid, off) := by
            refine List.inj_on_of_nodup_map hvals hq_in hp_mem ?_
            rw [hqo, habs]
          exact hq_ne_pid (by rw [this])
        exact List.mem_filter.mpr ⟨ho_in, by simpa using hne⟩
    · exact alookup_aerase_self pid m.tx_start
    · intro habs
      exact Option.noConfusion habs
    · exact alookup_aerase_self pid m.expected
    · exact alookup_aerase_self pid m.estimated
    · exact alookup_aerase_self pid m.preparing

/-- Witness for c10_mem_forget_keeps_tx_starts_image at a concrete state
with one tracked transaction. -/
theorem c10_witness :
    tx_starts_inv
      ((⟨1, [(⟨7, 0⟩, 44)], -1, -1, [(⟨7, 0⟩, 5)], [5], [(⟨7, 0⟩, 1)], []⟩ :
        mem_state).forget ⟨7, 0⟩) ∧
    alookup ⟨7, 0⟩
      ((⟨1, [(⟨7, 0⟩, 44)], -1, -1, [(⟨7, 0⟩, 5)], [5], [(⟨7, 0⟩, 1)], []⟩ :
        mem_state).forget ⟨7, 0⟩).tx_start = none ∧
    (alookup ⟨7, 0⟩
      (⟨1, [(⟨7, 0⟩, 44)], -1, -1, [(⟨7, 0⟩, 5)], [5], [(⟨7, 0⟩, 1)], []⟩ :
        mem_state).tx_start = none →
      ((⟨1, [(⟨7, 0⟩, 44)], -1, -1, [(⟨7, 0⟩, 5)], [5], [(⟨7, 0⟩, 1)], []⟩ :
        mem_state).forget ⟨7, 0⟩).tx_starts
        = (⟨1, [(⟨7, 0⟩, 44)], -1, -1, [(⟨7, 0⟩, 5)], [5], [(⟨7, 0⟩, 1)], []⟩ :
          mem_state).tx_starts ∧
      ((⟨1, [(⟨7, 0⟩, 44)], -1, -1, [(⟨7, 0⟩, 5)], [5], [(⟨7, 0⟩, 1)], []⟩ :
        mem_state).forget ⟨7, 0⟩).tx_start
        = (⟨1, [(⟨7, 0⟩, 44)], -1, -1, [(⟨7, 0⟩, 5)], [5], [(⟨7, 0⟩, 1)], []⟩ :
          mem_state).tx_start) ∧
    alookup ⟨7, 0⟩
      ((⟨1, [(⟨7, 0⟩, 44)], -1, -1, [(⟨7, 0⟩, 5)], [5], [(⟨7, 0⟩, 1)], []⟩ :
        mem_state).forget ⟨7, 0⟩).expected = none ∧
    alookup ⟨7, 0⟩
      ((⟨1, [(⟨7, 0⟩, 44)], -1, -1, [(⟨7, 0⟩, 5)], [5], [(⟨7, 0⟩, 1)], []⟩ :
        mem_state).forget ⟨7, 0⟩).estimated = none ∧
    alookup ⟨7, 0⟩
      ((⟨1, [(⟨7, 0⟩, 44)], -1, -1, [(⟨7, 0⟩, 5)], [5], [(⟨7, 0⟩, 1)], []⟩ :
        mem_state).forget ⟨7, 0⟩).preparing = none :=
  c10_mem_forget_keeps_tx_starts_image
    ⟨1, [(⟨7, 0⟩, 44)], -1, -1, [(⟨7, 0⟩, 5)], [5], [(⟨7, 0⟩, 1)], []⟩
    ⟨7, 0⟩ (by decide) (by decide) (by unfold tx_starts_inv; decide)

/-- The inputs of one last_stable_offset evaluation, as produced by an
arbitrary interleaving of replicate / apply / begin_tx / commit_tx /
abort_tx: whether the STM has caught up to its bootstrap offset, the base
offset (min of last_applied and the committed-index bound, §4.4 step 1),
and the members of ongoing_set ∪ tx_starts ∪ estimated.values. -/
structure lso_env where
  ready : Bool
  base : Int
  ongoing : List Int
deriving DecidableEq, Repr

/-- Minimum of a list of offsets, none when empty (∞ in §4.4 step 2). -/
def ongoing_min : List Int → Option Int
  | [] => none
  | x :: t =>
    match ongoing_min t with
    | none => some x
    | some m => some (min x m)

/-- Modelled from the spec: the candidate of §4.4 step 3,
min(base + 1, ongoing_first). -/
def lso_candidate (e : lso_env) : Int :=
  match ongoing_min e.ongoing with
  | some m => min (e.base + 1) m
  | none => e.base + 1

/-- Modelled from the spec: rm_stm::last_stable_offset (rm_stm.cc, not
among the sources), §4.4: return "not ready" (negative) before the STM
has caught up to its bootstrap offset, otherwise max(last_lso, candidate),
which the caller stores back into mem_state.last_lso. -/
def last_stable_offset (e : lso_env) (last_lso : Int) : Int :=
  if e.ready then max last_lso (lso_candidate e) else -1

/-- Modelled from the spec: model::prev_offset applied by
rm_stm::max_collectible_offset; per the in-source comment (rm_stm.h lines
237-241) "we subtract one from the last stable offset". -/
def prev_offset (o : Int) : Int := o - 1

/-- rm_stm::max_collectible_offset, rm_stm.h lines 232-243: take the LSO;
if it is negative return the default model::offset (0); otherwise return
its predecessor. -/
def max_collectible_offset (e : lso_env) (last_lso : Int) : Int :=
  let lso := last_stable_offset e last_lso
  if lso < 0 then 0 else prev_offset lso

/-- C3 counterexample: with base = 100, one ongoing transaction at first
offset 5 (candidate = 5) and memoized last_lso = 10,
max_collectible_offset returns last_stable_offset() - 1 = 9, not
candidate - 1 = 4. -/
theorem c3_counterexample :
    lso_candidate ⟨true, 100, [5]⟩ = 5 ∧
    max_collectible_offset ⟨true, 100, [5]⟩ 10 = 9 ∧
    (9 : Int) ≠ 5 - 1 := by decide

/-- C3 (amended): max_collectible_offset returns
last_stable_offset() - 1 = max(last_lso, candidate) - 1, which equals
candidate - 1 only when last_lso ≤ candidate; when the STM is not ready
(last_stable_offset() negative) it returns the default model::offset. -/
theorem c3_max_collectible_is_lso_minus_one (e : lso_env) (last_lso : Int) :
    (last_stable_offset e last_lso < 0 →
      max_collectible_offset e last_lso = 0) ∧
    (0 ≤ last_stable_offset e last_lso →
      max_collectible_offset e last_lso
        = max last_lso (lso_candidate e) - 1 ∧
      e.ready = true) := by
  constructor
  · intro hneg
    rw [max_collectible_offset]
    simp only [if_pos hneg]
  · intro hpos
    by_cases hr : e.ready = true
    · refine ⟨?_, hr⟩
      rw [max_collectible_offset]
      simp only [not_lt.mpr hpos, if_neg (not_lt.mpr hpos)]
      rw [prev_offset, last_stable_offset, if_pos hr]
      simp
    · exfalso
      rw [last_stable_offset, if_neg hr] at hpos
      omega

/-- Witness for c3_max_collectible_is_lso_minus_one: the ready case at
the counterexample state and the not-ready case at a fresh state. -/
theorem c3_witness :
    max_collectible_offset ⟨true, 100, [5]⟩ 10
      = max 10 (lso_candidate ⟨true, 100, [5]⟩) - 1 ∧
    max_collectible_offset ⟨false, 0, []⟩ (-1) = 0 :=
  ⟨((c3_max_collectible_is_lso_minus_one ⟨true, 100, [5]⟩ 10).2
      (by decide)).1,
   (c3_max_collectible_is_lso_minus_one ⟨false, 0, []⟩ (-1)).1 (by decide)⟩

/-- The successive values returned by successful last_stable_offset reads
along a run: each ready read returns max(last_lso, candidate) and stores
it back into last_lso (§4.4 step 4); a not-ready read returns the
negative "not ready" marker without storing and is not a successful
read. -/
def lso_read_trace (last_lso : Int) : List lso_env → List Int
  | [] => []
  | e :: es =>
    if e.ready then
      last_stable_offset e last_lso
        :: lso_read_trace (last_stable_offset e last_lso) es
    else
      lso_read_trace last_lso es

lemma lso_read_trace_lower_bound :
    ∀ (es : List lso_env) (l x : Int), x ∈ lso_read_trace l es → l ≤ x := by
  intro es
  induction es with
  | nil =>
    intro l x hx
    simp [lso_read_trace] at hx
  | cons e es ih =>
    intro l x hx
    by_cases hr : e.ready = true
    · rw [lso_read_trace, if_pos hr] at hx
      have hv : l ≤ last_stable_offset e l := by
        rw [last_stable_offset, if_pos hr]
        exact le_max_left _ _
      rcases List.mem_cons.mp hx with hhead | htail
      · rw [hhead]
        exact hv
      · exact le_trans hv (ih _ x htail)
    · rw [lso_read_trace, if_neg hr] at hx
      exact ih l x hx

/-- C6: across any interleaving of the state-changing operations
(modelled as an arbitrary sequence of lso_env inputs, since replicate,
apply, begin_tx, commit_tx and abort_tx change only the base offset and
the ongoing/estimated offsets, never mem_state.last_lso), the successive
return values of successful last_stable_offset() reads are non-decreasing:
each read returns max(last_lso, candidate) and stores it back. -/
theorem c6_lso_monotone (last_lso : Int) (es : List lso_env) :
    List.Chain' (fun a b => a ≤ b) (lso_read_trace last_lso es) := by
  induction es generalizing last_lso with
  | nil => exact List.chain'_nil
  | cons e es ih =>
    by_cases hr : e.ready = true
    · rw [lso_read_trace, if_pos hr]
      refine List.chain'_cons'.mpr ⟨?_, ih _⟩
      intro y hy
      refine lso_read_trace_lower_bound es _ y ?_
      exact List.mem_of_mem_head? hy
    · rw [lso_read_trace, if_neg hr]
      exact ih last_lso

/-- rm_stm::tx_snapshot::tx_data_snapshot, rm_stm.h lines 169-175. -/
structure tx_data_snapshot where
  pid : producer_identity
  tx_seq : Int
  tm : Int
deriving DecidableEq, Repr

/-- rm_stm::tx_snapshot::expiration_snapshot, rm_stm.h lines 177-182. -/
structure expiration_snapshot where
  pid : producer_identity
  timeout : Int
deriving DecidableEq, Repr

/-- rm_stm::tx_snapshot, rm_stm.h lines 158-188, fields in declaration
order. -/
structure tx_snapshot where
  fenced : List producer_identity
  ongoing : List tx_range
  prepared : List prepare_marker
  aborted : List tx_range
  abort_indexes : List abort_index
  offset : Int
  seqs : List seq_entry
  tx_data : List tx_data_snapshot
  expiration : List expiration_snapshot
deriving DecidableEq, Repr

/-- tx_snapshot::version, rm_stm.h line 159. -/
def tx_snapshot_version : Nat := 4

/-- One serialized segment of the local snapshot. -/
inductive snap_field where
  | ver (v : Nat)
  | fenced (l : List producer_identity)
  | ongoing (l : List tx_range)
  | prepared (l : List prepare_marker)
  | aborted (l : List tx_range)
  | abort_indexes (l : List abort_index)
  | offset (o : Int)
  | seqs (l : List seq_entry)
  | tx_data (l : List tx_data_snapshot)
  | expiration (l : List expiration_snapshot)
deriving DecidableEq, Repr

/-- Modelled from the spec: rm_stm::take_local_snapshot (rm_stm.cc, not
among the sources) serializes, per §6, a version byte 4, then the
length-prefixed vectors in the order listed in §4.6 (fenced, ongoing,
prepared, aborted, abort_indexes), then offset, then seqs, then tx_data,
then expiration. -/
def take_local_snapshot (s : tx_snapshot) : List snap_field :=
  [ .ver tx_snapshot_version
  , .fenced s.fenced
  , .ongoing s.ongoing
  , .prepared s.prepared
  , .aborted s.aborted
  , .abort_indexes s.abort_indexes
  , .offset s.offset
  , .seqs s.seqs
  , .tx_data s.tx_data
  , .expiration s.expiration ]

/-- A reader accepting exactly the v4 layout: version byte 4 followed by
the nine fields in the claimed order; anything else is rejected. -/
def parse_local_snapshot : List snap_field → Option tx_snapshot
  | [ .ver 4, .fenced f, .ongoing o, .prepared p, .aborted a,
      .abort_indexes ai, .offset off, .seqs sq, .tx_data td,
      .expiration ex ] => some ⟨f, o, p, a, ai, off, sq, td, ex⟩
  | _ => none

/-- C8: the local snapshot format has version 4 and carries exactly the
fields fenced, ongoing, prepared, aborted, abort_indexes, offset, seqs,
tx_data, expiration, serialized in that order: the serializer emits
precisely that sequence and a reader demanding exactly that layout
recovers the snapshot. -/
theorem c8_local_snapshot_v4_layout (s : tx_snapshot) :
    take_local_snapshot s
      = [ .ver 4
        , .fenced s.fenced
        , .ongoing s.ongoing
        , .prepared s.prepared
        , .aborted s.aborted
        , .abort_indexes s.abort_indexes
        , .offset s.offset
        , .seqs s.seqs
        , .tx_data s.tx_data
        , .expiration s.expiration ] ∧
    parse_local_snapshot (take_local_snapshot s) = some s := by
  constructor
  · rfl
  · rfl
